import Mathlib

/-!
Verification of the video-transcoder orchestration script.

A shallow embedding of `video_transcoder.py`: filesystem paths are lists of
name components, external-process results (ffprobe, ffmpeg, `input()`,
filesystem state) are explicit parameters, and the control flow of the
script is translated function by function.  The observable behaviour of a
run (console messages, external invocations, deletions) is collected as a
trace of events.
-/

namespace VideoTranscoder

/-! ### Python string primitives

`str.lower`, `str.strip` and `pathlib.PurePath.suffix` / `.with_suffix` /
`.stem`, modelled on the character list underlying a `String`. -/

/-- Python `str.lower` (ASCII-relevant part): lowercase every character. -/
def pyLower (s : String) : String :=
  ⟨s.data.map Char.toLower⟩

/-- Characters removed by Python `str.strip()` with no argument. -/
def isPySpace (c : Char) : Bool :=
  c = ' ' || c = '\t' || c = '\n' || c = '\r' || c = '\x0b' || c = '\x0c'

/-- Python `str.strip()`: drop whitespace from both ends. -/
def pyStrip (s : String) : String :=
  ⟨((s.data.dropWhile isPySpace).reverse.dropWhile isPySpace).reverse⟩

/-- Split a reversed character list at its first `'.'`: on `reverse name`
this finds the last dot of `name`.  Returns `(charsAfterDotReversed,
charsBeforeDotReversed)`; `none` when there is no dot. -/
def splitRevAtDot : List Char → Option (List Char × List Char)
  | [] => none
  | c :: cs =>
    if c = '.' then some ([], cs)
    else
      match splitRevAtDot cs with
      | some (a, b) => some (c :: a, b)
      | none => none

/-- `pathlib` `PurePath.suffix` of a file name: the part from the last dot
on, empty when the last dot is the first character or the final character
or there is no dot. -/
def nameSuffix (name : String) : String :=
  match splitRevAtDot name.data.reverse with
  | some (a, b) => if a ≠ [] ∧ b ≠ [] then ⟨'.' :: a.reverse⟩ else ""
  | none => ""

/-- `pathlib` `PurePath.stem` of a file name: the name with its suffix
removed. -/
def nameStem (name : String) : String :=
  ⟨name.data.take (name.data.length - (nameSuffix name).data.length)⟩

/-- `pathlib` `PurePath.with_suffix` at the file-name level: remove the old
suffix (if any) and append the new one. -/
def withSuffix (name suffix : String) : String :=
  ⟨name.data.take (name.data.length - (nameSuffix name).data.length) ++ suffix.data⟩

/-! ### Paths

A path is its list of name components; the scanned root and the output
folder are such lists, and every file the scanner yields is the root
followed by the file's components relative to the root. -/

/-- A filesystem path as a list of name components. -/
abbrev FsPath := List String

/-- The final name component of a path (`PurePath.name`); `""` for the
empty path. -/
def fileName (p : FsPath) : String :=
  (p.getLast?).getD ""

/-- `PurePath.relative_to(root)` for a path that lies under `root`:
drop the root's components. -/
def relativeTo (p root : FsPath) : FsPath :=
  p.drop root.length

/-- `Path.with_suffix` at the path level: replace the last component's
suffix. -/
def withSuffixPath (p : FsPath) (suffix : String) : FsPath :=
  p.dropLast ++ [withSuffix (fileName p) suffix]

/-- `Path.with_name` at the path level: replace the last component. -/
def withNamePath (p : FsPath) (name : String) : FsPath :=
  p.dropLast ++ [name]

/-- Split a character list at `/` separators. -/
def splitSlashAux : List Char → List Char → List String
  | [], acc => [⟨acc.reverse⟩]
  | c :: cs, acc =>
    if c = '/' then ⟨acc.reverse⟩ :: splitSlashAux cs []
    else splitSlashAux cs (c :: acc)

/-- A CLI string argument (e.g. the root folder or `--output-folder`
value) read as a path, splitting on `/` as `pathlib.Path` does. -/
def pathComponents (s : String) : FsPath :=
  splitSlashAux s.data []

/-- Render a path back to the `/`-joined string handed to the external
tools. -/
def joinPath : FsPath → String
  | [] => ""
  | [x] => x
  | x :: xs => x ++ "/" ++ joinPath xs

/-! ### File classifier -/

/-- `VIDEO_EXTENSIONS` from the script, verbatim.  Note that `.mp4` is
absent. -/
def VIDEO_EXTENSIONS : List String :=
  [".avi", ".mkv", ".mov", ".wmv", ".flv", ".webm", ".m4v",
   ".mpg", ".mpeg", ".3gp", ".asf", ".rm", ".rmvb", ".vob",
   ".ts", ".mts", ".m2ts", ".divx", ".xvid", ".ogv"]

/-- `is_video_file`: the lowercased suffix lies in the allow-list. -/
def is_video_file (name : String) : Bool :=
  VIDEO_EXTENSIONS.contains (pyLower (nameSuffix name))

/-- Outcome of running the ffprobe subprocess on a file: a completed run
(any exit code, with captured stdout), a timeout
(`subprocess.TimeoutExpired`), some other `subprocess.SubprocessError`, or
the probe executable missing (`FileNotFoundError`). -/
inductive ProbeResult where
  | completed (exitCode : Int) (stdout : String)
  | timeout
  | subprocessError
  | toolMissing
deriving DecidableEq

/-- A Python exception escaping a modelled function. -/
inductive PyExn where
  | fileNotFound
deriving DecidableEq

/-- `is_already_h264_mp4`.  For a non-`.mp4` suffix it returns `false`
immediately.  Otherwise it runs ffprobe and compares the stripped,
lowercased stdout against `"h264"` — the exit code is not inspected.  The
`except` clause catches `TimeoutExpired` and `SubprocessError` only, so a
missing probe tool (`FileNotFoundError`) escapes as an exception. -/
def is_already_h264_mp4 (name : String) (probe : ProbeResult) :
    Except PyExn Bool :=
  if pyLower (nameSuffix name) ≠ ".mp4" then .ok false
  else
    match probe with
    | .completed _ stdout => .ok (pyLower (pyStrip stdout) = "h264")
    | .timeout => .ok false
    | .subprocessError => .ok false
    | .toolMissing => .error .fileNotFound

/-! ### Tree scanner

`folder.rglob(STAR)` is modelled as the list of entries it yields, in
traversal order: each entry carries its path relative to the root, whether
it is a regular file, and the scripted results of the external invocations
the run would perform on it. -/

/-- Outcome of running the ffmpeg encode subprocess: a completed run with
exit code and captured stderr, a timeout (`subprocess.TimeoutExpired`), or
any other exception (caught by the blanket `except Exception`). -/
inductive EncodeResult where
  | completed (exitCode : Int) (stderr : String)
  | timeout
  | exn (msg : String)
deriving DecidableEq

/-- One entry yielded by `folder.rglob(STAR)`. -/
structure FSEntry where
  /-- Path components relative to the scanned root; the last is the file
  name. -/
  relPath : FsPath
  /-- Whether `is_file()` holds for the entry. -/
  isFile : Bool
  /-- What the ffprobe invocation on this entry would yield. -/
  probe : ProbeResult
  /-- What the ffmpeg encode invocation on this entry would yield. -/
  encode : EncodeResult
  /-- Whether `unlink()` on the entry would succeed. -/
  unlinkOk : Bool
deriving DecidableEq

/-- The scan loop of `find_and_transcode_videos` (lines 103–109): keep
regular files whose extension is in the allow-list and that are not
already H.264 MP4; count the latter as skipped.  An exception raised by
`is_already_h264_mp4` aborts the scan. -/
def scanFolder : List FSEntry → Except PyExn (List FSEntry × Nat)
  | [] => .ok ([], 0)
  | e :: rest =>
    if e.isFile && is_video_file (fileName e.relPath) then
      match is_already_h264_mp4 (fileName e.relPath) e.probe with
      | .error ex => .error ex
      | .ok true =>
        match scanFolder rest with
        | .error ex => .error ex
        | .ok (cands, skipped) => .ok (cands, skipped + 1)
      | .ok false =>
        match scanFolder rest with
        | .error ex => .error ex
        | .ok (cands, skipped) => .ok (e :: cands, skipped)
    else scanFolder rest

/-! ### Transcode driver -/

/-- The fixed ffmpeg argument list of `transcode_video` (lines 42–53),
verbatim. -/
def transcode_cmd (input output : String) : List String :=
  ["ffmpeg",
   "-i", input,
   "-c:v", "libx264",
   "-crf", "23",
   "-preset", "medium",
   "-c:a", "aac",
   "-b:a", "128k",
   "-movflags", "+faststart",
   "-y",
   output]

/-- The bounded wait passed to `subprocess.run` for an encode, in
seconds. -/
def TRANSCODE_TIMEOUT : Nat := 3600

/-- Per-candidate result as reported by `transcode_video`: success exactly
on exit code 0; otherwise failure carrying the diagnostic the script
prints (captured stderr, or a timeout / exception message). -/
inductive TranscodeOutcome where
  | succeeded
  | failedExit (stderr : String)
  | failedTimeout
  | failedExn (msg : String)
deriving DecidableEq

/-- `transcode_video` (lines 58–72) as a function of the encode
subprocess's outcome. -/
def transcode_video (r : EncodeResult) : TranscodeOutcome :=
  match r with
  | .completed code stderr => if code = 0 then .succeeded else .failedExit stderr
  | .timeout => .failedTimeout
  | .exn msg => .failedExn msg

/-- Observable events of a run: console messages, external invocations,
directory creation and deletions. -/
inductive Event where
  | usage
  | unknownArg (a : String)
  | conflictError
  | prompt
  | cancelled
  | rootMissing
  | rootNotDir
  | ffmpegCheck
  | ffmpegMissing
  | noVideos
  | mkdirCall (p : FsPath)
  | encodeCall (cmd : List String)
  | encodeFailed (diag : String)
  | unlinkCall (p : FsPath)
  | removedOriginal (p : FsPath)
  | unlinkWarning
  | summary (successes total : Nat)
  | uncaught (ex : PyExn)
deriving DecidableEq

/-- Output-path selection of the driver (lines 126–137): under an output
folder, the output root joined with the input's path relative to the
scanned root, suffix replaced by `.mp4`; under replace-original, the input
with suffix replaced by `.mp4`; otherwise a `_h264.mp4`-suffixed sibling. -/
def computeOutputPath (folder : FsPath) (outputFolder : Option FsPath)
    (replaceOriginal : Bool) (input : FsPath) : FsPath :=
  match outputFolder with
  | some outDir => outDir ++ withSuffixPath (relativeTo input folder) ".mp4"
  | none =>
    if replaceOriginal then withSuffixPath input ".mp4"
    else withNamePath input (nameStem (fileName input) ++ "_h264.mp4")

/-- The `mkdir(parents=True, exist_ok=True)` calls the driver performs for
a candidate when an output folder is set (lines 127–132). -/
def mkdirEvents (outputFolder : Option FsPath) (output : FsPath) : List Event :=
  match outputFolder with
  | some outDir => [.mkdirCall outDir, .mkdirCall output.dropLast]
  | none => []

/-- What follows the encoder invocation for one candidate (lines 139–148):
the contribution to `success_count`, and on success under replace-original
the deletion of the original when it differs from the output (a failing
deletion prints a warning); on failure the printed diagnostic. -/
def outcomeEvents (replaceOriginal : Bool) (input output : FsPath)
    (unlinkOk : Bool) : TranscodeOutcome → Nat × List Event
  | .succeeded =>
    (1, if replaceOriginal && input ≠ output then
          (if unlinkOk then [.unlinkCall input, .removedOriginal input]
           else [.unlinkCall input, .unlinkWarning])
        else [])
  | .failedExit stderr => (0, [.encodeFailed stderr])
  | .failedTimeout => (0, [.encodeFailed "timeout"])
  | .failedExn msg => (0, [.encodeFailed msg])

/-- The body of the driver loop for one candidate (lines 122–148): compute
the output path, create output directories when an output folder is set,
run the encoder, then the post-outcome steps.  Returns the contribution to
`success_count` and the events. -/
def processOne (folder : FsPath) (outputFolder : Option FsPath)
    (replaceOriginal : Bool) (e : FSEntry) : Nat × List Event :=
  let input := folder ++ e.relPath
  let output := computeOutputPath folder outputFolder replaceOriginal input
  let r := outcomeEvents replaceOriginal input output e.unlinkOk
             (transcode_video e.encode)
  (r.1,
   mkdirEvents outputFolder output
     ++ [Event.encodeCall (transcode_cmd (joinPath input) (joinPath output))]
     ++ r.2)

/-- The driver loop (lines 121–148): process candidates strictly in order,
accumulating `success_count` and the event trace. -/
def driveLoop (folder : FsPath) (outputFolder : Option FsPath)
    (replaceOriginal : Bool) : List FSEntry → Nat × List Event
  | [] => (0, [])
  | e :: rest =>
    let r := processOne folder outputFolder replaceOriginal e
    let rr := driveLoop folder outputFolder replaceOriginal rest
    (r.1 + rr.1, r.2 ++ rr.2)

/-! ### CLI front-end -/

/-- The non-argv environment of a run: filesystem facts, scripted external
results, and the interactive confirmation response. -/
structure Env where
  /-- Whether the root folder exists. -/
  rootExists : Bool
  /-- Whether the root folder is a directory. -/
  rootIsDir : Bool
  /-- Whether `ffmpeg -version` is invocable. -/
  ffmpegAvailable : Bool
  /-- The entries `rglob` yields under the root, in order. -/
  entries : List FSEntry
  /-- The string `input()` returns at the confirmation prompt. -/
  response : String

/-- Python truthiness of the `output_folder` variable, which is `None` or
a string: `None` and the empty string are falsy.  Lines 126 and 182 branch
on this truthiness, not on mere presence of the flag. -/
def pyTruthy : Option String → Bool
  | none => false
  | some s => s ≠ ""

/-- The output-folder value the driver's `if output_folder:` branch (line
126) actually acts on: the parsed path when the string is truthy, and
nothing when `output_folder` is `None` or empty (Python then falls through
to the replace/sibling branches). -/
def effectiveOutputFolder (outputFolder : Option String) : Option FsPath :=
  if pyTruthy outputFolder then outputFolder.map pathComponents else none

/-- `find_and_transcode_videos` (lines 74–151): root checks, ffmpeg
availability check, scan, then the driver, ending with the summary line. -/
def find_and_transcode_videos (folderPath : String) (outputFolder : Option String)
    (replaceOriginal : Bool) (env : Env) : List Event :=
  if !env.rootExists then [.rootMissing]
  else if !env.rootIsDir then [.rootNotDir]
  else
    .ffmpegCheck ::
    (if !env.ffmpegAvailable then [.ffmpegMissing]
     else
      match scanFolder env.entries with
      | .error ex => [.uncaught ex]
      | .ok (cands, _skipped) =>
        if cands.isEmpty then [.noVideos]
        else
          let folder := pathComponents folderPath
          let r := driveLoop folder (effectiveOutputFolder outputFolder)
                     replaceOriginal cands
          r.2 ++ [.summary r.1 cands.length])

/-- The argument-parsing loop of `main` (lines 170–180).  `--output-folder`
consumes the following argument as its value when one exists; with no
following argument the first conjunct of the `if` fails and the token falls
through to the `else` branch as an unknown argument. -/
def parseArgsLoop : List String → Option String → Bool →
    Except String (Option String × Bool)
  | [], out, rep => .ok (out, rep)
  | a :: rest, out, rep =>
    if a = "--output-folder" && !rest.isEmpty then
      match rest with
      | v :: rest2 => parseArgsLoop rest2 (some v) rep
      | [] => .error a
    else if a = "--replace-original" then parseArgsLoop rest out true
    else .error a

/-- `main` (lines 153–192) over `sys.argv` (program name included): usage
when no root is given; parse flags; reject conflicting flags (line 182's
`replace_original and output_folder` tests the string's truthiness, so an
empty-string value does not conflict); under replace-original, prompt and
abort unless the response lowercases to `y`; then run
`find_and_transcode_videos`. -/
def mainRun (argv : List String) (env : Env) : List Event :=
  match argv with
  | _prog :: folderPath :: rest =>
    (match parseArgsLoop rest none false with
     | .error a => [.unknownArg a]
     | .ok (outputFolder, replaceOriginal) =>
       if replaceOriginal && pyTruthy outputFolder then [.conflictError]
       else if replaceOriginal then
         .prompt ::
           (if pyLower env.response ≠ "y" then [.cancelled]
            else find_and_transcode_videos folderPath outputFolder
                   replaceOriginal env)
       else find_and_transcode_videos folderPath outputFolder replaceOriginal env)
  | _ => [.usage]

/-! ### Directory creation

`mkdir(parents=True, exist_ok=True)`: create the directory and all missing
ancestors, succeeding when they already exist.  The set of existing
directories is a list of paths. -/

/-- Insert one directory if absent (`exist_ok=True`). -/
def insertDir (dirs : List FsPath) (p : FsPath) : List FsPath :=
  if p ∈ dirs then dirs else p :: dirs

/-- All ancestor prefixes of a path, shortest first, the path itself
included. -/
def ancestorDirs (p : FsPath) : List FsPath :=
  (List.range p.length).map (fun n => p.take (n + 1))

/-- `mkdir(parents=True, exist_ok=True)`: insert the directory and every
ancestor. -/
def mkdir_parents (dirs : List FsPath) (p : FsPath) : List FsPath :=
  (ancestorDirs p).foldl insertDir dirs


/-! ### Concrete scenario entries -/

/-- `a.avi`: a regular file with a recognised extension whose encode
succeeds. -/
def entryAvi : FSEntry :=
  { relPath := ["a.avi"], isFile := true, probe := .completed 0 "",
    encode := .completed 0 "", unlinkOk := true }

/-- `b.mp4`: a regular `.mp4` file whose probe reports `h264`. -/
def entryMp4H264 : FSEntry :=
  { relPath := ["b.mp4"], isFile := true, probe := .completed 0 "h264\n",
    encode := .completed 0 "", unlinkOk := true }

/-- `c.txt`: a regular file with an unrecognised extension. -/
def entryTxt : FSEntry :=
  { relPath := ["c.txt"], isFile := true, probe := .completed 0 "",
    encode := .completed 0 "", unlinkOk := true }

/-- `d.mp4`: a regular `.mp4` file whose probe reports `hevc`. -/
def entryMp4Hevc : FSEntry :=
  { relPath := ["d.mp4"], isFile := true, probe := .completed 0 "hevc\n",
    encode := .completed 0 "", unlinkOk := true }

/-- Recognise an encoder invocation among the events. -/
def isEncodeCall : Event → Bool
  | .encodeCall _ => true
  | _ => false

/-- Number of encoder invocations in a trace. -/
def countEncodeCalls (t : List Event) : Nat :=
  t.countP isEncodeCall

/-- A complete, well-formed environment for concrete runs: the root exists
and is a directory, ffmpeg is available, the tree holds `a.avi`, and the
confirmation response is `y`. -/
def env0 : Env :=
  { rootExists := true, rootIsDir := true, ffmpegAvailable := true,
    entries := [entryAvi], response := "y" }

/-- An environment with ffmpeg unavailable and a declining confirmation
response. -/
def envNoTool : Env :=
  { rootExists := true, rootIsDir := true, ffmpegAvailable := false,
    entries := [entryAvi], response := "n" }

/-! ### Claim theorems -/

/-- C1: the claim fails on the code.  `.mp4` is absent from
`VIDEO_EXTENSIONS`, so `is_video_file` rejects every `.mp4` file and the
scan ignores them entirely: on the spec's own scenario `a.avi`, `b.mp4`
(probe reports `h264`), `c.txt`, the scan yields candidates `[a.avi]` with
skipped count `0`, not `1`, even though `is_already_h264_mp4` would have
reported `b.mp4` as already H.264; and an `.mp4` whose probe reports a
non-target codec is never included as a candidate.  The skip branch of the
scan and `is_already_h264_mp4` are unreachable for the `.mp4` files they
were written for, so the code contradicts its own intent. -/
theorem C1_mp4_files_never_scanned :
    scanFolder [entryAvi, entryMp4H264, entryTxt] = .ok ([entryAvi], 0)
    ∧ is_video_file "b.mp4" = false
    ∧ is_already_h264_mp4 "b.mp4" (.completed 0 "h264\n") = .ok true
    ∧ scanFolder [entryMp4Hevc] = .ok ([], 0) := by
  refine ⟨rfl, rfl, rfl, rfl⟩

/-- C2: counterexample.  The claim says `IsAlreadyTargetFormat` returns
`false` (never raises) on every probe failure.  But a missing probe tool
raises `FileNotFoundError`, which the `except` clause (catching only
`TimeoutExpired` and `SubprocessError`) does not intercept; and the probe's
exit code is never inspected, so a non-zero exit whose stdout still reads
`h264` yields `true`, not `false`. -/
theorem C2_counterexample :
    is_already_h264_mp4 "x.mp4" .toolMissing ≠ .ok false
    ∧ is_already_h264_mp4 "x.mp4" .toolMissing = .error .fileNotFound
    ∧ is_already_h264_mp4 "x.mp4" (.completed 1 "h264") ≠ .ok false
    ∧ is_already_h264_mp4 "x.mp4" (.completed 1 "h264") = .ok true := by
  have h1 : is_already_h264_mp4 "x.mp4" .toolMissing = .error .fileNotFound := rfl
  have h2 : is_already_h264_mp4 "x.mp4" (.completed 1 "h264") = .ok true := rfl
  refine ⟨?_, h1, ?_, h2⟩
  · rw [h1]; simp
  · rw [h2]; simp

/-- C2 (amended): for a path whose lowercased suffix is not `.mp4` the
classifier returns `false` without probing; for an `.mp4` path it returns
`true` iff the stripped, lowercased probe stdout equals `h264` regardless
of the probe's exit code, returns `false` on probe timeout and on any
other `SubprocessError`, and raises an uncaught `FileNotFoundError` when
the probe tool is missing. -/
theorem C2_probe_failure_semantics (name : String) :
    (∀ probe, pyLower (nameSuffix name) ≠ ".mp4" →
      is_already_h264_mp4 name probe = .ok false)
    ∧ (pyLower (nameSuffix name) = ".mp4" →
        (∀ c s, is_already_h264_mp4 name (.completed c s) =
            .ok (pyLower (pyStrip s) = "h264"))
        ∧ is_already_h264_mp4 name .timeout = .ok false
        ∧ is_already_h264_mp4 name .subprocessError = .ok false
        ∧ is_already_h264_mp4 name .toolMissing = .error .fileNotFound) := by
  constructor
  · intro probe h
    simp [is_already_h264_mp4, h]
  · intro h
    refine ⟨fun c s => ?_, ?_, ?_, ?_⟩ <;> simp [is_already_h264_mp4, h]

/-- C2 (amended), witness at concrete inputs. -/
theorem C2_probe_failure_semantics_witness :
    is_already_h264_mp4 "c.txt" .timeout = .ok false
    ∧ is_already_h264_mp4 "x.mp4" (.completed 1 " H264 ") = .ok true
    ∧ is_already_h264_mp4 "x.mp4" .toolMissing = .error .fileNotFound := by
  refine ⟨(C2_probe_failure_semantics "c.txt").1 .timeout (by decide), ?_, ?_⟩
  · have h := ((C2_probe_failure_semantics "x.mp4").2 (by decide)).1 1 " H264 "
    simpa using h
  · exact ((C2_probe_failure_semantics "x.mp4").2 (by decide)).2.2.2

theorem encodeCall_not_mem_mkdirEvents (outF : Option FsPath) (output : FsPath)
    (cmd : List String) : Event.encodeCall cmd ∉ mkdirEvents outF output := by
  cases outF <;> simp [mkdirEvents]

theorem encodeCall_not_mem_outcomeEvents (rep : Bool) (input output : FsPath)
    (ok : Bool) (o : TranscodeOutcome) (cmd : List String) :
    Event.encodeCall cmd ∉ (outcomeEvents rep input output ok o).2 := by
  cases o with
  | succeeded =>
    simp only [outcomeEvents]
    split
    · split <;> simp
    · simp
  | failedExit s => simp [outcomeEvents]
  | failedTimeout => simp [outcomeEvents]
  | failedExn m => simp [outcomeEvents]

theorem encodeCall_mem_processOne {folder : FsPath} {outF : Option FsPath}
    {rep : Bool} {e : FSEntry} {cmd : List String}
    (h : Event.encodeCall cmd ∈ (processOne folder outF rep e).2) :
    cmd = transcode_cmd (joinPath (folder ++ e.relPath))
      (joinPath (computeOutputPath folder outF rep (folder ++ e.relPath))) := by
  simp only [processOne, List.mem_append, List.mem_singleton] at h
  rcases h with (h | h) | h
  · exact absurd h (encodeCall_not_mem_mkdirEvents _ _ _)
  · exact (Event.encodeCall.injEq _ _).mp h
  · exact absurd h (encodeCall_not_mem_outcomeEvents _ _ _ _ _ _)

theorem encodeCall_mem_driveLoop {folder : FsPath} {outF : Option FsPath}
    {rep : Bool} {es : List FSEntry} {cmd : List String}
    (h : Event.encodeCall cmd ∈ (driveLoop folder outF rep es).2) :
    ∃ e ∈ es, cmd = transcode_cmd (joinPath (folder ++ e.relPath))
      (joinPath (computeOutputPath folder outF rep (folder ++ e.relPath))) := by
  induction es with
  | nil => simp [driveLoop] at h
  | cons e rest ih =>
    simp only [driveLoop, List.mem_append] at h
    rcases h with h | h
    · exact ⟨e, List.mem_cons_self e rest, encodeCall_mem_processOne h⟩
    · obtain ⟨e', he', hc⟩ := ih h
      exact ⟨e', List.mem_cons_of_mem _ he', hc⟩

theorem mem_mkdirEvents {ev : Event} {outF : Option FsPath} {output : FsPath}
    (h : ev ∈ mkdirEvents outF output) : ∃ p, ev = Event.mkdirCall p := by
  cases outF with
  | none => simp [mkdirEvents] at h
  | some d =>
    simp only [mkdirEvents, List.mem_cons, List.mem_singleton] at h
    rcases h with h | h | h
    · exact ⟨d, h⟩
    · exact ⟨output.dropLast, h⟩
    · simp at h

theorem mem_outcomeEvents {ev : Event} {rep : Bool} {input output : FsPath}
    {ok : Bool} {o : TranscodeOutcome}
    (h : ev ∈ (outcomeEvents rep input output ok o).2) :
    ev = .unlinkCall input ∨ ev = .removedOriginal input ∨ ev = .unlinkWarning
      ∨ ∃ s, ev = .encodeFailed s := by
  cases o with
  | succeeded =>
    simp only [outcomeEvents] at h
    split at h
    · split at h <;> simp only [List.mem_cons, List.mem_singleton] at h <;>
        rcases h with h | h | h <;> simp_all
    · simp at h
  | failedExit s =>
    simp only [outcomeEvents, List.mem_singleton] at h
    exact Or.inr (Or.inr (Or.inr ⟨s, h⟩))
  | failedTimeout =>
    simp only [outcomeEvents, List.mem_singleton] at h
    exact Or.inr (Or.inr (Or.inr ⟨"timeout", h⟩))
  | failedExn m =>
    simp only [outcomeEvents, List.mem_singleton] at h
    exact Or.inr (Or.inr (Or.inr ⟨m, h⟩))

theorem mem_processOne {ev : Event} {folder : FsPath} {outF : Option FsPath}
    {rep : Bool} {e : FSEntry} (h : ev ∈ (processOne folder outF rep e).2) :
    (∃ p, ev = Event.mkdirCall p) ∨ (∃ c, ev = Event.encodeCall c)
      ∨ (∃ p, ev = Event.unlinkCall p) ∨ (∃ p, ev = Event.removedOriginal p)
      ∨ ev = Event.unlinkWarning ∨ (∃ s, ev = Event.encodeFailed s) := by
  simp only [processOne, List.mem_append, List.mem_singleton] at h
  rcases h with (h | h) | h
  · exact Or.inl (mem_mkdirEvents h)
  · exact Or.inr (Or.inl ⟨_, h⟩)
  · rcases mem_outcomeEvents h with h | h | h | h
    · exact Or.inr (Or.inr (Or.inl ⟨_, h⟩))
    · exact Or.inr (Or.inr (Or.inr (Or.inl ⟨_, h⟩)))
    · exact Or.inr (Or.inr (Or.inr (Or.inr (Or.inl h))))
    · exact Or.inr (Or.inr (Or.inr (Or.inr (Or.inr h))))

theorem mem_driveLoop {ev : Event} {folder : FsPath} {outF : Option FsPath}
    {rep : Bool} {es : List FSEntry}
    (h : ev ∈ (driveLoop folder outF rep es).2) :
    (∃ p, ev = Event.mkdirCall p) ∨ (∃ c, ev = Event.encodeCall c)
      ∨ (∃ p, ev = Event.unlinkCall p) ∨ (∃ p, ev = Event.removedOriginal p)
      ∨ ev = Event.unlinkWarning ∨ (∃ s, ev = Event.encodeFailed s) := by
  induction es with
  | nil => simp [driveLoop] at h
  | cons e rest ih =>
    simp only [driveLoop, List.mem_append] at h
    rcases h with h | h
    · exact mem_processOne h
    · exact ih h

theorem countP_isEncodeCall_mkdirEvents (outF : Option FsPath) (output : FsPath) :
    List.countP isEncodeCall (mkdirEvents outF output) = 0 := by
  cases outF <;> rfl

theorem countP_isEncodeCall_outcomeEvents (rep : Bool) (input output : FsPath)
    (ok : Bool) (o : TranscodeOutcome) :
    List.countP isEncodeCall (outcomeEvents rep input output ok o).2 = 0 := by
  cases o with
  | succeeded =>
    simp only [outcomeEvents]
    split
    · split <;> rfl
    · rfl
  | failedExit s => rfl
  | failedTimeout => rfl
  | failedExn m => rfl

theorem countEncodeCalls_processOne (folder : FsPath) (outF : Option FsPath)
    (rep : Bool) (e : FSEntry) :
    countEncodeCalls (processOne folder outF rep e).2 = 1 := by
  simp only [processOne, countEncodeCalls, List.countP_append,
    countP_isEncodeCall_mkdirEvents, countP_isEncodeCall_outcomeEvents]
  rfl

theorem countEncodeCalls_driveLoop (folder : FsPath) (outF : Option FsPath)
    (rep : Bool) (es : List FSEntry) :
    countEncodeCalls (driveLoop folder outF rep es).2 = es.length := by
  induction es with
  | nil => rfl
  | cons e rest ih =>
    have h1 := countEncodeCalls_processOne folder outF rep e
    simp only [driveLoop, countEncodeCalls, List.countP_append, List.length_cons] at h1 ⊢
    rw [h1]
    simp only [countEncodeCalls] at ih
    omega

theorem processOne_fst (folder : FsPath) (outF : Option FsPath) (rep : Bool)
    (e : FSEntry) :
    (processOne folder outF rep e).1 =
      if transcode_video e.encode = .succeeded then 1 else 0 := by
  cases h : transcode_video e.encode <;> simp [processOne, outcomeEvents, h]

theorem driveLoop_succ_count (folder : FsPath) (outF : Option FsPath)
    (rep : Bool) (es : List FSEntry) :
    (driveLoop folder outF rep es).1 =
      es.countP (fun e => decide (transcode_video e.encode = .succeeded)) := by
  induction es with
  | nil => rfl
  | cons e rest ih =>
    simp only [driveLoop, List.countP_cons, ih, processOne_fst]
    by_cases h : transcode_video e.encode = .succeeded
    · simp [h]
      try omega
    · simp [h]
      try omega

theorem driveLoop_le_length (folder : FsPath) (outF : Option FsPath)
    (rep : Bool) (es : List FSEntry) :
    (driveLoop folder outF rep es).1 ≤ es.length := by
  rw [driveLoop_succ_count]
  exact List.countP_le_length _

theorem driveLoop_snoc (folder : FsPath) (outF : Option FsPath) (rep : Bool)
    (es : List FSEntry) (e : FSEntry) :
    (driveLoop folder outF rep (es ++ [e])).1 =
      (driveLoop folder outF rep es).1 + (processOne folder outF rep e).1 := by
  rw [driveLoop_succ_count, driveLoop_succ_count, processOne_fst,
    List.countP_append]
  by_cases h : transcode_video e.encode = .succeeded <;>
    simp [List.countP_cons, h]

theorem scanFolder_length {entries : List FSEntry} {cands : List FSEntry}
    {skipped : Nat} (h : scanFolder entries = .ok (cands, skipped)) :
    cands.length + skipped ≤ entries.length := by
  induction entries generalizing cands skipped with
  | nil =>
    simp only [scanFolder, Except.ok.injEq, Prod.mk.injEq] at h
    obtain ⟨h1, h2⟩ := h
    simp [← h1, ← h2]
  | cons e rest ih =>
    simp only [scanFolder] at h
    by_cases hv : (e.isFile && is_video_file (fileName e.relPath)) = true
    · rw [if_pos hv] at h
      cases hp : is_already_h264_mp4 (fileName e.relPath) e.probe with
      | error ex => rw [hp] at h; simp at h
      | ok b =>
        rw [hp] at h
        cases b with
        | true =>
          cases hr : scanFolder rest with
          | error ex => rw [hr] at h; simp at h
          | ok p =>
            obtain ⟨c, s⟩ := p
            rw [hr] at h
            simp only [Except.ok.injEq, Prod.mk.injEq] at h
            obtain ⟨h1, h2⟩ := h
            have := ih hr
            simp only [← h1, ← h2, List.length_cons]
            omega
        | false =>
          cases hr : scanFolder rest with
          | error ex => rw [hr] at h; simp at h
          | ok p =>
            obtain ⟨c, s⟩ := p
            rw [hr] at h
            simp only [Except.ok.injEq, Prod.mk.injEq] at h
            obtain ⟨h1, h2⟩ := h
            have := ih hr
            simp only [← h1, ← h2, List.length_cons]
            omega
    · rw [if_neg hv] at h
      have := ih h
      simp only [List.length_cons]
      omega

/-- C8: the encoder is always invoked with the fixed argument template —
`libx264` video at CRF 23 with preset `medium`, AAC audio at 128 kbit/s,
the `+faststart` container flag, unconditional overwrite (`-y`) — with a
bounded wait of 3600 seconds; and every encoder invocation the driver
performs uses exactly this template on the candidate's input and computed
output paths. -/
theorem C8_fixed_template :
    (∀ input output, transcode_cmd input output =
      ["ffmpeg", "-i", input, "-c:v", "libx264", "-crf", "23", "-preset",
       "medium", "-c:a", "aac", "-b:a", "128k", "-movflags", "+faststart",
       "-y", output])
    ∧ TRANSCODE_TIMEOUT = 3600
    ∧ (∀ folder outF rep es cmd,
        Event.encodeCall cmd ∈ (driveLoop folder outF rep es).2 →
        ∃ e ∈ es, cmd = transcode_cmd (joinPath (folder ++ e.relPath))
          (joinPath (computeOutputPath folder outF rep (folder ++ e.relPath)))) :=
  ⟨fun _ _ => rfl, rfl, fun _ _ _ _ _ h => encodeCall_mem_driveLoop h⟩

/-- C8, witness at concrete inputs. -/
theorem C8_fixed_template_witness :
    transcode_cmd "in.avi" "out.mp4" =
      ["ffmpeg", "-i", "in.avi", "-c:v", "libx264", "-crf", "23", "-preset",
       "medium", "-c:a", "aac", "-b:a", "128k", "-movflags", "+faststart",
       "-y", "out.mp4"]
    ∧ ∃ e ∈ [entryAvi], transcode_cmd "root/a.avi" "root/a_h264.mp4" =
        transcode_cmd (joinPath (["root"] ++ e.relPath))
          (joinPath (computeOutputPath ["root"] none false (["root"] ++ e.relPath))) :=
  ⟨C8_fixed_template.1 "in.avi" "out.mp4",
   C8_fixed_template.2.2 ["root"] none false [entryAvi] _ (by decide)⟩

theorem summary_not_mem_driveLoop (folder : FsPath) (outF : Option FsPath)
    (rep : Bool) (es : List FSEntry) (s t : Nat) :
    Event.summary s t ∉ (driveLoop folder outF rep es).2 := by
  intro h
  rcases mem_driveLoop h with ⟨p, hp⟩ | ⟨c, hc⟩ | ⟨p, hp⟩ | ⟨p, hp⟩ | hh | ⟨d, hd⟩ <;>
    simp_all

theorem summary_mem_find {folderPath : String} {outF : Option String} {rep : Bool}
    {env : Env} {s t : Nat}
    (h : Event.summary s t ∈ find_and_transcode_videos folderPath outF rep env) :
    s ≤ t := by
  simp only [find_and_transcode_videos] at h
  split at h
  · simp at h
  · split at h
    · simp at h
    · simp only [List.mem_cons] at h
      rcases h with h | h
      · simp at h
      · split at h
        · simp at h
        · cases hs : scanFolder env.entries with
          | error ex => rw [hs] at h; simp at h
          | ok p =>
            obtain ⟨cands, skipped⟩ := p
            rw [hs] at h
            by_cases he : cands.isEmpty
            · simp [he] at h
            · simp only [he, Bool.false_eq_true, if_false, List.mem_append,
                List.mem_singleton, Event.summary.injEq] at h
              rcases h with h | ⟨h1, h2⟩
              · exact absurd h (summary_not_mem_driveLoop _ _ _ _ _ _)
              · subst h1; subst h2
                exact driveLoop_le_length _ _ _ _

/-- C5: `transcode_video` reports success exactly when the encoder exits
with code 0; on a non-zero exit it reports failure carrying the tool's
captured stderr, on timeout or any other invocation exception it reports
failure with the corresponding message; and the driver invokes the encoder
exactly once per candidate — no retry, and a failure never stops the
remaining candidates from being processed. -/
theorem C5_transcode_result :
    (∀ c s, transcode_video (.completed c s) = .succeeded ↔ c = 0)
    ∧ (∀ c s, c ≠ 0 → transcode_video (.completed c s) = .failedExit s)
    ∧ transcode_video .timeout = .failedTimeout
    ∧ (∀ m, transcode_video (.exn m) = .failedExn m)
    ∧ (∀ folder outF rep es,
        countEncodeCalls (driveLoop folder outF rep es).2 = es.length) := by
  refine ⟨fun c s => ?_, fun c s hc => ?_, rfl, fun m => rfl,
    fun folder outF rep es => countEncodeCalls_driveLoop folder outF rep es⟩
  · constructor
    · intro h
      by_contra hc
      simp [transcode_video, hc] at h
    · intro h
      simp [transcode_video, h]
  · simp [transcode_video, hc]

/-- C5, witness at concrete inputs. -/
theorem C5_transcode_result_witness :
    (transcode_video (.completed 0 "") = .succeeded ↔ (0 : Int) = 0)
    ∧ transcode_video (.completed 1 "diag") = .failedExit "diag"
    ∧ countEncodeCalls (driveLoop ["root"] none false [entryAvi, entryTxt]).2 = 2 :=
  ⟨C5_transcode_result.1 0 "", C5_transcode_result.2.1 1 "diag" (by decide),
   C5_transcode_result.2.2.2.2 ["root"] none false [entryAvi, entryTxt]⟩

/-- C10: the driver's success count equals the number of candidates whose
encode succeeded; it grows by at most one per candidate (the count after
processing one further candidate is the previous count plus zero or one);
it never exceeds the number of candidates; a successful scan yields at
most as many candidates-plus-skipped as entries, so skipped files are in
neither number; and every summary the run prints satisfies
`successes ≤ total`. -/
theorem C10_success_count_invariant :
    (∀ folder outF rep es, (driveLoop folder outF rep es).1 =
        es.countP (fun e => decide (transcode_video e.encode = .succeeded)))
    ∧ (∀ folder outF rep es e, (driveLoop folder outF rep (es ++ [e])).1 =
        (driveLoop folder outF rep es).1 +
          (if transcode_video e.encode = .succeeded then 1 else 0))
    ∧ (∀ folder outF rep es, (driveLoop folder outF rep es).1 ≤ es.length)
    ∧ (∀ entries cands skipped,
        scanFolder entries = Except.ok (cands, skipped) →
        cands.length + skipped ≤ entries.length)
    ∧ (∀ folderPath outF rep env s t,
        Event.summary s t ∈ find_and_transcode_videos folderPath outF rep env →
        s ≤ t) := by
  refine ⟨driveLoop_succ_count, fun folder outF rep es e => ?_,
    driveLoop_le_length, fun entries cands skipped h => scanFolder_length h,
    fun folderPath outF rep env s t h => summary_mem_find h⟩
  rw [driveLoop_snoc, processOne_fst]

/-- C10, witness at concrete inputs. -/
theorem C10_success_count_invariant_witness :
    (driveLoop ["root"] none false ([entryAvi] ++ [entryTxt])).1 =
      (driveLoop ["root"] none false [entryAvi]).1 +
        (if transcode_video entryTxt.encode = .succeeded then 1 else 0)
    ∧ (1 : Nat) + 0 ≤ 3
    ∧ (1 : Nat) ≤ 1 :=
  ⟨C10_success_count_invariant.2.1 ["root"] none false [entryAvi] entryTxt,
   C10_success_count_invariant.2.2.2.1 [entryAvi, entryMp4H264, entryTxt]
     [entryAvi] 0 rfl,
   C10_success_count_invariant.2.2.2.2 "root" none false env0 1 1 (by decide)⟩

/-- C3: counterexample.  The claim says every invocation with both the
output-folder flag and the replace-original flag set aborts with the
conflicting-options error before anything is touched.  But line 182 tests
`replace_original and output_folder`, and Python string truthiness makes
the empty string falsy: with `--output-folder ''` and `--replace-original`
both set, no conflict error is printed — the run shows the confirmation
prompt and, once confirmed, invokes the encoder and deletes the original. -/
theorem C3_counterexample :
    Event.conflictError ∉
      mainRun ["prog", "root", "--output-folder", "", "--replace-original"] env0
    ∧ Event.prompt ∈
      mainRun ["prog", "root", "--output-folder", "", "--replace-original"] env0
    ∧ Event.encodeCall (transcode_cmd "root/a.avi" "root/a.mp4") ∈
      mainRun ["prog", "root", "--output-folder", "", "--replace-original"] env0
    ∧ Event.unlinkCall ["root", "a.avi"] ∈
      mainRun ["prog", "root", "--output-folder", "", "--replace-original"] env0 := by
  decide

/-- C3 (amended): when the parsed flags set replace-original together with
a non-empty output-folder value, `main` prints only the
conflicting-options error and stops: no confirmation prompt, no
encoder-availability check, no encoder invocation, no deletion — zero
files touched.  (With an empty-string value the truthiness test at line
182 fails and the run proceeds.) -/
theorem C3_conflicting_flags (prog folderPath : String) (args : List String)
    (env : Env) (o : String) (ho : o ≠ "")
    (h : parseArgsLoop args none false = .ok (some o, true)) :
    mainRun (prog :: folderPath :: args) env = [Event.conflictError]
    ∧ Event.prompt ∉ mainRun (prog :: folderPath :: args) env
    ∧ Event.ffmpegCheck ∉ mainRun (prog :: folderPath :: args) env
    ∧ (∀ cmd, Event.encodeCall cmd ∉ mainRun (prog :: folderPath :: args) env)
    ∧ (∀ p, Event.unlinkCall p ∉ mainRun (prog :: folderPath :: args) env) := by
  have hm : mainRun (prog :: folderPath :: args) env = [Event.conflictError] := by
    simp [mainRun, h, pyTruthy, ho]
  refine ⟨hm, ?_, ?_, fun cmd => ?_, fun p => ?_⟩ <;> rw [hm] <;> simp

/-- C3 (amended), witness at concrete inputs. -/
theorem C3_conflicting_flags_witness :
    mainRun ["prog", "root", "--output-folder", "o", "--replace-original"] env0 =
      [Event.conflictError] :=
  (C3_conflicting_flags "prog" "root"
    ["--output-folder", "o", "--replace-original"] env0 "o" (by decide) rfl).1

/-- C4: counterexample.  The claim says the encoder tool check runs before
the confirmation prompt is ever shown.  In the code the prompt is issued
by `main` before `find_and_transcode_videos` is called, and the
`ffmpeg -version` check lives inside the latter: with replace-original
set, a missing encoder and a declining response, the run shows the prompt
and cancels without the encoder tool ever being checked. -/
theorem C4_counterexample :
    mainRun ["prog", "root", "--replace-original"] envNoTool =
      [Event.prompt, Event.cancelled]
    ∧ Event.ffmpegCheck ∉
        mainRun ["prog", "root", "--replace-original"] envNoTool := by
  decide

/-- C4 (amended): the order is reversed — in every replace-original run
the confirmation prompt is the first event, strictly before any encoder
tool check (which happens only later, inside the scan/transcode phase);
when the confirmation is declined the run cancels and the encoder tool
check never occurs at all. -/
theorem C4_prompt_precedes_tool_check (prog folderPath : String)
    (args : List String) (env : Env)
    (h : parseArgsLoop args none false = .ok (none, true)) :
    (∃ t, mainRun (prog :: folderPath :: args) env = Event.prompt :: t)
    ∧ (pyLower env.response ≠ "y" →
        mainRun (prog :: folderPath :: args) env =
          [Event.prompt, Event.cancelled]
        ∧ Event.ffmpegCheck ∉ mainRun (prog :: folderPath :: args) env) := by
  have hm : mainRun (prog :: folderPath :: args) env =
      Event.prompt ::
        (if pyLower env.response ≠ "y" then [Event.cancelled]
         else find_and_transcode_videos folderPath none true env) := by
    simp [mainRun, h, pyTruthy]
  refine ⟨⟨_, hm⟩, fun hr => ?_⟩
  have hm2 : mainRun (prog :: folderPath :: args) env =
      [Event.prompt, Event.cancelled] := by
    rw [hm, if_pos hr]
  exact ⟨hm2, by rw [hm2]; simp⟩

/-- C4 (amended), witness at concrete inputs. -/
theorem C4_prompt_precedes_tool_check_witness :
    (∃ t, mainRun ["prog", "root", "--replace-original"] envNoTool =
      Event.prompt :: t)
    ∧ (mainRun ["prog", "root", "--replace-original"] envNoTool =
        [Event.prompt, Event.cancelled]
       ∧ Event.ffmpegCheck ∉
           mainRun ["prog", "root", "--replace-original"] envNoTool) :=
  ⟨(C4_prompt_precedes_tool_check "prog" "root" ["--replace-original"]
      envNoTool rfl).1,
   (C4_prompt_precedes_tool_check "prog" "root" ["--replace-original"]
      envNoTool rfl).2 (by decide)⟩

/-- C9: a trailing `--output-folder` with no following value fails the
`i + 1 < len(sys.argv)` conjunct, falls through to the unknown-argument
branch, and `main` prints only the unknown-argument message and stops: no
prompt, no encoder check, no encoder invocation. -/
theorem C9_dangling_output_flag :
    (∀ out rep, parseArgsLoop ["--output-folder"] out rep =
      .error "--output-folder")
    ∧ (∀ prog folderPath args env a,
        parseArgsLoop args none false = .error a →
        mainRun (prog :: folderPath :: args) env = [Event.unknownArg a]
        ∧ Event.prompt ∉ mainRun (prog :: folderPath :: args) env
        ∧ Event.ffmpegCheck ∉ mainRun (prog :: folderPath :: args) env
        ∧ (∀ cmd, Event.encodeCall cmd ∉
            mainRun (prog :: folderPath :: args) env)) := by
  constructor
  · intro out rep
    rfl
  · intro prog folderPath args env a h
    have hm : mainRun (prog :: folderPath :: args) env = [Event.unknownArg a] := by
      simp [mainRun, h]
    refine ⟨hm, ?_, ?_, fun cmd => ?_⟩ <;> rw [hm] <;> simp

/-- C9, witness at concrete inputs. -/
theorem C9_dangling_output_flag_witness :
    mainRun ["prog", "root", "--output-folder"] env0 =
      [Event.unknownArg "--output-folder"] :=
  (C9_dangling_output_flag.2 "prog" "root" ["--output-folder"] env0
    "--output-folder" (C9_dangling_output_flag.1 none false)).1

theorem splitRevAtDot_eq {r a b : List Char}
    (h : splitRevAtDot r = some (a, b)) : r = a ++ '.' :: b := by
  induction r generalizing a b with
  | nil => simp [splitRevAtDot] at h
  | cons c cs ih =>
    simp only [splitRevAtDot] at h
    split at h
    · next hc =>
      simp only [Option.some.injEq, Prod.mk.injEq] at h
      obtain ⟨h1, h2⟩ := h
      subst h1; subst h2
      simp [hc]
    · next hc =>
      cases hs : splitRevAtDot cs with
      | none => rw [hs] at h; simp at h
      | some p =>
        obtain ⟨a', b'⟩ := p
        rw [hs] at h
        simp only [Option.some.injEq, Prod.mk.injEq] at h
        obtain ⟨h1, h2⟩ := h
        subst h1; subst h2
        rw [ih hs]
        simp

theorem splitRevAtDot_mp4rev (r : List Char) :
    splitRevAtDot ('4' :: 'p' :: 'm' :: '.' :: r) = some (['4', 'p', 'm'], r) :=
  rfl

theorem data_ne_nil_of_ne_empty {s : String} (h : s ≠ "") : s.data ≠ [] :=
  fun hd => h (String.ext (hd.trans rfl))

theorem nameSuffix_no_dot {name : String}
    (h : splitRevAtDot name.data.reverse = none) : nameSuffix name = "" := by
  simp [nameSuffix, h]

theorem nameSuffix_invalid_dot {name : String} {a b : List Char}
    (hs : splitRevAtDot name.data.reverse = some (a, b))
    (hab : ¬(a ≠ [] ∧ b ≠ [])) : nameSuffix name = "" := by
  simp [nameSuffix, hs, hab]

theorem nameSuffix_valid_dot {name : String} {a b : List Char}
    (hs : splitRevAtDot name.data.reverse = some (a, b))
    (ha : a ≠ []) (hb : b ≠ []) : nameSuffix name = ⟨'.' :: a.reverse⟩ := by
  simp [nameSuffix, hs, ha, hb]

theorem take_stem_ne_nil (name : String) (h : name ≠ "") :
    name.data.take (name.data.length - (nameSuffix name).data.length) ≠ [] := by
  cases hs : splitRevAtDot name.data.reverse with
  | none =>
    rw [nameSuffix_no_dot hs]
    have h0 : ("" : String).data.length = 0 := rfl
    rw [h0, Nat.sub_zero, List.take_length]
    exact data_ne_nil_of_ne_empty h
  | some p =>
    obtain ⟨a, b⟩ := p
    by_cases hab : a ≠ [] ∧ b ≠ []
    · obtain ⟨ha, hb⟩ := hab
      rw [nameSuffix_valid_dot hs ha hb]
      have hr : name.data.reverse = a ++ '.' :: b := splitRevAtDot_eq hs
      have hd : name.data = b.reverse ++ '.' :: a.reverse := by
        have h2 := congrArg List.reverse hr
        simpa [List.reverse_append] using h2
      rw [hd]
      have hlen : (b.reverse ++ '.' :: a.reverse).length -
          ((⟨'.' :: a.reverse⟩ : String)).data.length = b.reverse.length := by
        simp
      rw [hlen, List.take_left]
      simpa using hb
    · rw [nameSuffix_invalid_dot hs hab]
      have h0 : ("" : String).data.length = 0 := rfl
      rw [h0, Nat.sub_zero, List.take_length]
      exact data_ne_nil_of_ne_empty h

theorem withSuffix_mp4_decomp (name : String) :
    withSuffix name ".mp4" =
      ⟨name.data.take (name.data.length - (nameSuffix name).data.length) ++
        ['.', 'm', 'p', '4']⟩ :=
  rfl

theorem nameSuffix_append_mp4 (t : List Char) (ht : t ≠ []) :
    nameSuffix ⟨t ++ ['.', 'm', 'p', '4']⟩ = ".mp4" := by
  have hs : splitRevAtDot ((⟨t ++ ['.', 'm', 'p', '4']⟩ : String)).data.reverse =
      some (['4', 'p', 'm'], t.reverse) := by
    have hd : ((⟨t ++ ['.', 'm', 'p', '4']⟩ : String)).data =
        t ++ ['.', 'm', 'p', '4'] := rfl
    rw [hd, List.reverse_append]
    exact splitRevAtDot_mp4rev t.reverse
  rw [nameSuffix_valid_dot hs (by simp) (by simpa using ht)]
  rfl

theorem nameSuffix_withSuffix_mp4 (name : String) (h : name ≠ "") :
    nameSuffix (withSuffix name ".mp4") = ".mp4" := by
  rw [withSuffix_mp4_decomp]
  exact nameSuffix_append_mp4 _ (take_stem_ne_nil name h)

theorem mem_insertDir_self (dirs : List FsPath) (p : FsPath) :
    p ∈ insertDir dirs p := by
  unfold insertDir
  split
  · assumption
  · exact List.mem_cons_self _ _

theorem mem_insertDir_of_mem (dirs : List FsPath) (p x : FsPath)
    (h : x ∈ dirs) : x ∈ insertDir dirs p := by
  unfold insertDir
  split
  · exact h
  · exact List.mem_cons_of_mem _ h

theorem mem_foldl_insertDir_of_mem (l : List FsPath) (dirs : List FsPath)
    (x : FsPath) (h : x ∈ dirs) : x ∈ l.foldl insertDir dirs := by
  induction l generalizing dirs with
  | nil => exact h
  | cons y rest ih => exact ih _ (mem_insertDir_of_mem _ _ _ h)

theorem mem_foldl_insertDir (l : List FsPath) (dirs : List FsPath) (x : FsPath)
    (h : x ∈ l) : x ∈ l.foldl insertDir dirs := by
  induction l generalizing dirs with
  | nil => simp at h
  | cons y rest ih =>
    rw [List.foldl_cons]
    rcases List.mem_cons.mp h with h' | h'
    · subst h'
      exact mem_foldl_insertDir_of_mem rest _ _ (mem_insertDir_self dirs _)
    · exact ih _ h'

theorem foldl_insertDir_of_all_mem (l : List FsPath) (dirs : List FsPath)
    (h : ∀ x ∈ l, x ∈ dirs) : l.foldl insertDir dirs = dirs := by
  induction l generalizing dirs with
  | nil => rfl
  | cons y rest ih =>
    have hy : insertDir dirs y = dirs := by
      unfold insertDir
      rw [if_pos (h y (List.mem_cons_self _ _))]
    rw [List.foldl_cons, hy]
    exact ih _ (fun x hx => h x (List.mem_cons_of_mem _ hx))

theorem mkdir_parents_idem (dirs : List FsPath) (p : FsPath) :
    mkdir_parents (mkdir_parents dirs p) p = mkdir_parents dirs p :=
  foldl_insertDir_of_all_mem _ _ (fun _ hx => mem_foldl_insertDir _ _ _ hx)

/-- C6: under an output folder, the computed output path is the output
root joined with the input's path relative to the scanned root, with the
last component's extension replaced by `.mp4`; the relative directory
structure is preserved; the resulting file name's extension is exactly
`.mp4` whatever the casing of the input extension; and
`mkdir(parents=True, exist_ok=True)` is idempotent. -/
theorem C6_output_path (folder outRoot rel : FsPath) (rep : Bool)
    (h2 : fileName rel ≠ "") :
    computeOutputPath folder (some outRoot) rep (folder ++ rel) =
        outRoot ++ withSuffixPath rel ".mp4"
    ∧ (withSuffixPath rel ".mp4").dropLast = rel.dropLast
    ∧ fileName (withSuffixPath rel ".mp4") = withSuffix (fileName rel) ".mp4"
    ∧ nameSuffix (fileName (withSuffixPath rel ".mp4")) = ".mp4"
    ∧ (∀ dirs p, mkdir_parents (mkdir_parents dirs p) p = mkdir_parents dirs p) := by
  have hfile : fileName (withSuffixPath rel ".mp4") =
      withSuffix (fileName rel) ".mp4" := by
    simp [withSuffixPath, fileName, List.getLast?_concat]
  refine ⟨?_, ?_, hfile, ?_, mkdir_parents_idem⟩
  · simp [computeOutputPath, relativeTo, List.drop_left]
  · simp [withSuffixPath, List.dropLast_concat]
  · rw [hfile]
    exact nameSuffix_withSuffix_mp4 _ h2

/-- C6, witness at concrete inputs (uppercase extension). -/
theorem C6_output_path_witness :
    computeOutputPath ["root"] (some ["out"]) false (["root"] ++ ["Sub", "MOVIE.AVI"]) =
        ["out"] ++ withSuffixPath ["Sub", "MOVIE.AVI"] ".mp4"
    ∧ (withSuffixPath ["Sub", "MOVIE.AVI"] ".mp4").dropLast =
        (["Sub", "MOVIE.AVI"] : FsPath).dropLast
    ∧ fileName (withSuffixPath ["Sub", "MOVIE.AVI"] ".mp4") =
        withSuffix (fileName ["Sub", "MOVIE.AVI"]) ".mp4"
    ∧ nameSuffix (fileName (withSuffixPath ["Sub", "MOVIE.AVI"] ".mp4")) = ".mp4"
    ∧ (∀ dirs p, mkdir_parents (mkdir_parents dirs p) p = mkdir_parents dirs p) :=
  C6_output_path ["root"] ["out"] ["Sub", "MOVIE.AVI"] false (by decide)

/-- C7: after a successful transcode under replace-original, the original
is deleted exactly when the computed output path differs from the input
path; a failing deletion produces only a warning, and the success count is
one regardless of whether the deletion succeeds — at the whole-run level
the success count is independent of every entry's deletion result. -/
theorem C7_replace_cleanup (folder : FsPath) (outF : Option FsPath) (e : FSEntry)
    (h : transcode_video e.encode = .succeeded) :
    (processOne folder outF true e).1 = 1
    ∧ (Event.unlinkCall (folder ++ e.relPath) ∈ (processOne folder outF true e).2 ↔
        folder ++ e.relPath ≠ computeOutputPath folder outF true (folder ++ e.relPath))
    ∧ (e.unlinkOk = false →
        folder ++ e.relPath ≠ computeOutputPath folder outF true (folder ++ e.relPath) →
        Event.unlinkWarning ∈ (processOne folder outF true e).2)
    ∧ (∀ b, (processOne folder outF true { e with unlinkOk := b }).1 = 1)
    ∧ (∀ rep es (f : FSEntry → Bool),
        (driveLoop folder outF rep (es.map fun x => { x with unlinkOk := f x })).1 =
          (driveLoop folder outF rep es).1) := by
  refine ⟨?_, ?_, ?_, fun b => ?_, fun rep es f => ?_⟩
  · simp [processOne_fst, h]
  · constructor
    · intro hm
      by_contra hne
      simp only [processOne, h, outcomeEvents, List.mem_append] at hm
      rcases hm with (hm | hm) | hm
      · obtain ⟨p, hp⟩ := mem_mkdirEvents hm
        simp at hp
      · simp at hm
      · split at hm
        · rename_i hcond
          have hne2 : folder ++ e.relPath ≠
              computeOutputPath folder outF true (folder ++ e.relPath) := by
            simpa using hcond
          exact hne2 hne
        · simp at hm
    · intro hne
      simp only [processOne, h, outcomeEvents, List.mem_append]
      refine Or.inr ?_
      rw [if_pos (by simp [hne])]
      cases e.unlinkOk <;> simp
  · intro hu hne
    simp only [processOne, h, outcomeEvents, List.mem_append]
    refine Or.inr ?_
    rw [if_pos (by simp [hne]), hu]
    simp
  · simp [processOne_fst, h]
  · rw [driveLoop_succ_count, driveLoop_succ_count, List.countP_map]
    rfl

/-- C7, witness at concrete inputs. -/
theorem C7_replace_cleanup_witness :
    (processOne ["root"] none true entryAvi).1 = 1
    ∧ Event.unlinkCall ["root", "a.avi"] ∈ (processOne ["root"] none true entryAvi).2 :=
  ⟨(C7_replace_cleanup ["root"] none entryAvi rfl).1,
   (C7_replace_cleanup ["root"] none entryAvi rfl).2.1.mpr (by decide)⟩

end VideoTranscoder
